import Mathlib

/-!
# Verification of the Playwright Angular e2e builder

Shallow embedding of the e2e builder (`buildArgs`, `startDevServer`,
`startPlaywrightTest`, `runE2E`) of the `playwright-ng-schematics`
repository, together with proofs of the specified properties.

JavaScript JSON-compatible values are modelled by `JsonValue` (numbers as
integers, which covers every value the builder schema admits); a JavaScript
object is an insertion-ordered association list, mirroring
`Object.entries` enumeration order.  The asynchronous collaborators of the
orchestrator (the host scheduler and the spawned child process) are
modelled by explicit behaviour parameters (`DevServerBehavior`,
`ProcessBehavior`), and the externally observable actions of one
invocation are recorded in an event trace.
-/

/-- JavaScript JSON-compatible values (plus `undefined`), as handled by the
builder.  Numbers are modelled as integers: every numeric option of the
builder schema is an integer. -/
inductive JsonValue where
  | str (s : String)
  | num (n : Int)
  | bool (b : Bool)
  | null
  | undefined
  | arr (elems : List JsonValue)
  | obj (fields : List (String × JsonValue))

/-- A JavaScript object: insertion-ordered association list of fields. -/
abbrev JsonFields := List (String × JsonValue)

/-- Property access `obj.key`: the first binding of `key`, or `undefined`
when the key is absent (JavaScript semantics). -/
def jsGet (o : JsonFields) (key : String) : JsonValue :=
  match o.lookup key with
  | some v => v
  | none => JsonValue.undefined

/-- JavaScript truthiness of a value, as used by `if (options.devServerTarget)`
and `if (baseURL)`. -/
def jsTruthy : JsonValue → Bool
  | .str s => !s.isEmpty
  | .num n => decide (n ≠ 0)
  | .bool b => b
  | .null => false
  | .undefined => false
  | .arr _ => true
  | .obj _ => true

/-- JavaScript `String(value)` on the values above. -/
def jsToString : JsonValue → String
  | .str s => s
  | .num n => toString n
  | .bool true => "true"
  | .bool false => "false"
  | .null => "null"
  | .undefined => "undefined"
  | .arr elems => String.intercalate "," (elems.attach.map fun v => jsToString v.1)
  | .obj _ => "[object Object]"
decreasing_by
  simp_wf
  have h := List.sizeOf_lt_of_mem v.2
  omega

/-- Modelled from the dependency `@angular-devkit/core`:
`decamelize(str) = str.replace(/([a-z\d])([A-Z])/g, "$1_$2").toLowerCase()`,
on the character list of the string. -/
def decamelizeChars : List Char → List Char
  | [] => []
  | [c] => [c.toLower]
  | c₁ :: c₂ :: rest =>
    if (c₁.isLower || c₁.isDigit) && c₂.isUpper then
      c₁.toLower :: '_' :: decamelizeChars (c₂ :: rest)
    else
      c₁.toLower :: decamelizeChars (c₂ :: rest)

/-- Modelled from the dependency `@angular-devkit/core`:
`strings.dasherize(str) = decamelize(str).replace(/[ _]/g, "-")`. -/
def dasherize (s : String) : String :=
  String.mk ((decamelizeChars s.data).map fun c =>
    if c = ' ' || c = '_' then '-' else c)

/-- The flag prefix chosen by `buildArgs`: a single dash for one-character
keys, a double dash otherwise (`const dashes = key.length === 1 ? '-' : '--'`). -/
def dashPrefix (key : String) : String :=
  if key.length = 1 then "-" else "--"

/-- The tokens `buildArgs` emits for one entry of `Object.entries(options)`
inside the `flatMap` callback.  In JavaScript, `typeof value === 'object'`
is true for objects, arrays and `null`, so those cases and `undefined` all
hit the skip branch. -/
def entryArgs (key : String) (value : JsonValue) : List String :=
  if key = "devServerTarget" then []
  else if key = "port" then []
  else
    match value with
    | .obj _ => []
    | .arr _ => []
    | .null => []
    | .undefined => []
    | .bool b =>
      if b then [dashPrefix key ++ dasherize key] else []
    | .str s => [dashPrefix key ++ dasherize key, s]
    | .num n => [dashPrefix key ++ dasherize key, jsToString (.num n)]

/-- `const filesArgs = (options.files as string[]) ?? []`: the `files`
entry read before the mutation, `??` replacing `null`/`undefined` by the
empty list; the eventual consumption of the array coerces each element
with JavaScript string conversion (an element of a well-typed input is
already a string, on which the coercion is the identity). -/
def filesArgsOf (options : JsonFields) : List String :=
  match jsGet options "files" with
  | .arr elems => elems.map jsToString
  | _ => []

/-- The JavaScript assignment `options.files = null` on an object: every
existing `files` binding is overwritten; when the key is absent, a new
binding is appended at the end. -/
def setFilesNull (options : JsonFields) : JsonFields :=
  if options.any (fun p => p.1 = "files") then
    options.map fun p => if p.1 = "files" then ("files", JsonValue.null) else p
  else
    options ++ [("files", JsonValue.null)]

/-- `buildArgs(options)`: first component is the returned argv list, second
component is the state of the caller's `options` object after the call
(the source mutates it via `options.files = null`). -/
def buildArgs (options : JsonFields) : List String × JsonFields :=
  let filesArgs := filesArgsOf options
  let mutated := setFilesNull options
  (filesArgs ++ mutated.flatMap (fun p => entryArgs p.1 p.2), mutated)

/-- `const overrides: JsonObject = port !== null ? { port } : {}` in
`startDevServer`; `port` is typed `number | null`. -/
def devServerOverrides (port : Option Int) : JsonFields :=
  match port with
  | some p => [("port", JsonValue.num p)]
  | none => []

/-! ## Process runner environment (`startPlaywrightTest`, lines 81–103) -/

/-- An environment: association list of variable name to value, unique
names in a real process environment. -/
abbrev Env := List (String × String)

/-- One JavaScript object-literal assignment during the evaluation of
`{ PLAYWRIGHT_TEST_BASE_URL: baseURL, ...process.env }`: an existing key
is overwritten in place, a new key is appended. -/
def objAssign (o : Env) (key value : String) : Env :=
  if o.any (fun p => p.1 = key) then
    o.map fun p => if p.1 = key then (key, value) else p
  else
    o ++ [(key, value)]

/-- Spreading `addl` into an object that already holds `base`:
assignments are performed left to right, later ones overriding. -/
def objSpread (base addl : Env) : Env :=
  addl.foldl (fun acc p => objAssign acc p.1 p.2) base

/-- The environment handed to `spawn` by `startPlaywrightTest`:
`let env = process.env; if (baseURL) { env = { PLAYWRIGHT_TEST_BASE_URL:
baseURL, ...process.env }; }`.  Note the spread of `process.env` comes
after the explicit entry. -/
def childEnv (processEnv : Env) (baseURL : String) : Env :=
  if jsTruthy (JsonValue.str baseURL) then
    objSpread [("PLAYWRIGHT_TEST_BASE_URL", baseURL)] processEnv
  else
    processEnv

/-! ## Orchestrator (`runE2E`, lines 120–147)

The host scheduler and the child process are external collaborators; one
invocation observes them only through the outcomes below, so an invocation
is modelled as a function of those outcomes. -/

/-- Outcome of the dev-server phase offered by the host in one invocation:
`targetFromTargetString` throws (malformed target), `scheduleTarget`
rejects, or scheduling is accepted and the handle's `result` promise
either rejects or yields a base URL. -/
inductive DevServerBehavior where
  | rejectResolve
  | rejectSchedule
  | scheduled (result : Except Unit String)

/-- Behaviour of the spawned test process: `spawn` fails outright
(the promise rejects with that error), or the `exit` event fires with an
exit code (`none` models the `null` code of a signal-terminated process). -/
inductive ProcessBehavior where
  | spawnError
  | exit (code : Option Int)
deriving DecidableEq, Repr

/-- Externally observable actions of one `runE2E` invocation, in order. -/
inductive Event where
  | resolveTarget
  | scheduleTarget (overrides : JsonFields)
  | stop
  | spawnTest (baseURL : String)

/-- The handle returned by `scheduleTarget`: its eventual `result`
(rejecting, or carrying `{baseUrl}`). -/
structure ServerHandle where
  result : Except Unit String

/-- `startDevServer(context, devServerTarget, port)`: resolve the target
string (may throw), build the overrides, call `scheduleTarget` (may
reject), return the handle.  Paired with the actions performed. -/
def startDevServer (port : Option Int) (dev : DevServerBehavior) :
    Except Unit ServerHandle × List Event :=
  match dev with
  | .rejectResolve => (.error (), [.resolveTarget])
  | .rejectSchedule =>
    (.error (), [.resolveTarget, .scheduleTarget (devServerOverrides port)])
  | .scheduled r =>
    (.ok ⟨r⟩, [.resolveTarget, .scheduleTarget (devServerOverrides port)])

/-- The settled outcome of the promise returned by `startPlaywrightTest`:
the `exit` handler runs `if (exitCode !== 0) { reject(exitCode); }
resolve(true);`, so the promise rejects exactly when the code is not `0`
(a rejection settles the promise before the following `resolve`); a spawn
failure rejects it. -/
def startPlaywrightTestOutcome (proc : ProcessBehavior) : Except Unit Bool :=
  match proc with
  | .spawnError => .error ()
  | .exit code => if code = some 0 then .ok true else .error ()

/-- `options.port` of `PlaywrightBuilderOptions` (`number | null`). -/
def optionsPort (options : JsonFields) : Option Int :=
  match jsGet options "port" with
  | .num n => some n
  | _ => none

/-- The builder's result type `BuilderOutput` (the fields `runE2E` produces). -/
structure BuilderOutput where
  success : Bool
deriving DecidableEq, Repr

/-- `runE2E(options, context)`: the try block starts the dev server when
`options.devServerTarget` is truthy (leaving `server` undefined if that
throws before assignment), awaits its base URL, then spawns the test
process; the catch converts any error into `{success:false}`; the finally
calls `server.stop()` exactly when `server` was assigned.  Returns the
builder output paired with the event trace. -/
def runE2E (options : JsonFields) (dev : DevServerBehavior)
    (proc : ProcessBehavior) : BuilderOutput × List Event :=
  let devPhase : Option ServerHandle × Except Unit String × List Event :=
    if jsTruthy (jsGet options "devServerTarget") then
      match startDevServer (optionsPort options) dev with
      | (.error e, evs) => (none, .error e, evs)
      | (.ok handle, evs) =>
        match handle.result with
        | .error e => (some handle, .error e, evs)
        | .ok baseUrl => (some handle, .ok baseUrl, evs)
    else
      (none, .ok "", [])
  match devPhase with
  | (server, devOutcome, devEvents) =>
    let tryCatch : BuilderOutput × List Event :=
      match devOutcome with
      | .error _ => (⟨false⟩, [])
      | .ok baseURL =>
        match startPlaywrightTestOutcome proc with
        | .ok _ => (⟨true⟩, [.spawnTest baseURL])
        | .error _ => (⟨false⟩, [.spawnTest baseURL])
    let finallyEvents : List Event := if server.isSome then [.stop] else []
    (tryCatch.1, devEvents ++ tryCatch.2 ++ finallyEvents)

/-- Whether a `ServerHandle` is obtained during the invocation: the
assignment `server = await startDevServer(...)` completes exactly when the
target is truthy and scheduling was accepted. -/
def handleObtained (options : JsonFields) (dev : DevServerBehavior) : Bool :=
  jsTruthy (jsGet options "devServerTarget") &&
    (match dev with | .scheduled _ => true | _ => false)

/-- Counts the `stop` events of a trace. -/
def stopCount (trace : List Event) : Nat :=
  trace.countP fun e => match e with | .stop => true | _ => false


/-! ## Spec-side definitions for refinement claims -/

/-- Modelled from the spec: the reserved option keys of the data model,
`devServerTarget`, `port` and `files`. -/
def specReserved (k : String) : Bool :=
  k = "devServerTarget" || k = "port" || k = "files"

/-- Modelled from the spec: the tokens emitted for one remaining (i.e.
non-reserved) key/value pair — an object, array, null or undefined value
emits nothing; boolean true emits one token `<prefix><dasherized-key>`;
boolean false emits nothing; otherwise two tokens, the flag then the
value's string form; the prefix is a single dash for one-character keys
and a double dash otherwise. -/
def specEntryTokens (key : String) (value : JsonValue) : List String :=
  let flag := (if key.length = 1 then "-" else "--") ++ dasherize key
  match value with
  | .obj _ => []
  | .arr _ => []
  | .null => []
  | .undefined => []
  | .bool b => if b then [flag] else []
  | .str s => [flag, s]
  | .num n => [flag, toString n]

/-- The `files` option denotes a list of file names: either it is the
array of exactly those strings, or it is null/undefined and the list is
empty (the source's `?? []` default). -/
def filesDenotes (v : JsonValue) (fs : List String) : Prop :=
  v = JsonValue.arr (fs.map JsonValue.str) ∨
    ((v = JsonValue.null ∨ v = JsonValue.undefined) ∧ fs = [])

/-! ## Lemmas about `buildArgs` -/

lemma entryArgs_eq_specEntryTokens (k : String) (v : JsonValue)
    (h1 : k ≠ "devServerTarget") (h2 : k ≠ "port") :
    entryArgs k v = specEntryTokens k v := by
  cases v <;> simp [entryArgs, specEntryTokens, h1, h2, dashPrefix, jsToString]

/-- An entry whose value is null whenever its key is `files` contributes
nothing when its key is reserved, and its spec-side tokens otherwise. -/
lemma entryArgs_cases (k : String) (v : JsonValue)
    (hf : k = "files" → v = JsonValue.null) :
    entryArgs k v = if specReserved k then [] else specEntryTokens k v := by
  by_cases h1 : k = "devServerTarget"
  · simp [entryArgs, specReserved, h1]
  · by_cases h2 : k = "port"
    · simp [entryArgs, specReserved, h2]
    · by_cases h3 : k = "files"
      · subst h3
        rw [hf rfl]
        simp [entryArgs, specReserved]
      · rw [entryArgs_eq_specEntryTokens k v h1 h2]
        simp [specReserved, h1, h2, h3]

lemma flatMap_map_setNull (o : JsonFields) :
    ((o.map fun p => if p.1 = "files" then ("files", JsonValue.null) else p).flatMap
        fun p => entryArgs p.1 p.2) =
      (o.filter fun p => !specReserved p.1).flatMap fun p => specEntryTokens p.1 p.2 := by
  induction o with
  | nil => rfl
  | cons p o ih =>
    obtain ⟨k, v⟩ := p
    rw [List.map_cons, List.flatMap_cons, List.filter_cons]
    by_cases h3 : k = "files"
    · subst h3
      rw [if_pos rfl]
      have h : entryArgs "files" JsonValue.null = [] := rfl
      rw [h, List.nil_append, ih]
      have hres : specReserved "files" = true := rfl
      simp [hres]
    · rw [if_neg h3]
      rw [entryArgs_cases k v (fun h => absurd h h3)]
      by_cases hres : specReserved k = true
      · simp [hres, ih]
      · simp only [Bool.not_eq_true] at hres
        simp [hres, List.flatMap_cons, ih]

lemma flatMap_noFiles (o : JsonFields) (hnf : ∀ p ∈ o, p.1 ≠ "files") :
    (o.flatMap fun p => entryArgs p.1 p.2) =
      (o.filter fun p => !specReserved p.1).flatMap fun p => specEntryTokens p.1 p.2 := by
  induction o with
  | nil => rfl
  | cons p o ih =>
    obtain ⟨k, v⟩ := p
    rw [List.flatMap_cons, List.filter_cons]
    have hk : k ≠ "files" := hnf (k, v) (by simp)
    rw [entryArgs_cases k v (fun h => absurd h hk)]
    have ih' := ih (fun q hq => hnf q (List.mem_cons_of_mem _ hq))
    by_cases hres : specReserved k = true
    · simp [hres, ih']
    · simp only [Bool.not_eq_true] at hres
      simp [hres, List.flatMap_cons, ih']

/-- After the `files` nulling, the `flatMap` over the mutated object emits
exactly the spec-side tokens of the non-reserved entries of the original
object. -/
lemma flatMap_setFilesNull (o : JsonFields) :
    ((setFilesNull o).flatMap fun p => entryArgs p.1 p.2) =
      (o.filter fun p => !specReserved p.1).flatMap fun p => specEntryTokens p.1 p.2 := by
  unfold setFilesNull
  split
  · exact flatMap_map_setNull o
  · next hany =>
    rw [List.flatMap_append]
    have h : entryArgs "files" JsonValue.null = [] := rfl
    simp only [List.flatMap_cons, List.flatMap_nil, h, List.append_nil]
    refine flatMap_noFiles o ?_
    intro p hp
    have := List.any_eq_false.mp (Bool.of_not_eq_true hany) p hp
    simpa using this

lemma lookup_cons_self {β : Type} (k : String) (v : β) (l : List (String × β)) :
    List.lookup k ((k, v) :: l) = some v := by
  simp [List.lookup]

lemma lookup_cons_ne {β : Type} (k k' : String) (v : β) (l : List (String × β))
    (h : k ≠ k') : List.lookup k ((k', v) :: l) = List.lookup k l := by
  have hb : (k == k') = false := beq_eq_false_iff_ne.mpr h
  simp [List.lookup, hb]

lemma lookup_map_setNull_files (o : JsonFields)
    (h : (o.any fun p => p.1 = "files") = true) :
    ((o.map fun p => if p.1 = "files" then ("files", JsonValue.null) else p).lookup
      "files") = some JsonValue.null := by
  induction o with
  | nil => simp at h
  | cons p o ih =>
    obtain ⟨k, v⟩ := p
    rw [List.map_cons]
    by_cases hk : k = "files"
    · rw [if_pos hk, lookup_cons_self]
    · rw [if_neg hk, lookup_cons_ne _ _ _ _ (Ne.symm hk)]
      have h' : (o.any fun p => p.1 = "files") = true := by
        simpa [hk] using h
      exact ih h'

lemma lookup_map_setNull_ne (o : JsonFields) (k : String) (h : k ≠ "files") :
    ((o.map fun p => if p.1 = "files" then ("files", JsonValue.null) else p).lookup k)
      = o.lookup k := by
  induction o with
  | nil => rfl
  | cons p o ih =>
    obtain ⟨k', v⟩ := p
    rw [List.map_cons]
    by_cases hk : k' = "files"
    · rw [if_pos hk]
      have hne : k ≠ k' := hk ▸ h
      rw [lookup_cons_ne _ _ _ _ (hk ▸ h), lookup_cons_ne _ _ _ _ hne, ih]
    · rw [if_neg hk]
      by_cases he : k = k'
      · subst he
        rw [lookup_cons_self, lookup_cons_self]
      · rw [lookup_cons_ne _ _ _ _ he, lookup_cons_ne _ _ _ _ he, ih]

lemma lookup_append_files (o : JsonFields)
    (h : ∀ p ∈ o, p.1 ≠ "files") :
    (o ++ [("files", JsonValue.null)]).lookup "files" = some JsonValue.null := by
  induction o with
  | nil => exact lookup_cons_self "files" JsonValue.null []
  | cons p o ih =>
    obtain ⟨k, v⟩ := p
    have hk : k ≠ "files" := h (k, v) (by simp)
    rw [List.cons_append, lookup_cons_ne _ _ _ _ (Ne.symm hk)]
    exact ih (fun q hq => h q (List.mem_cons_of_mem _ hq))

lemma lookup_append_ne (o : JsonFields) (k : String) (h : k ≠ "files") :
    (o ++ [("files", JsonValue.null)]).lookup k = o.lookup k := by
  induction o with
  | nil =>
    simpa using lookup_cons_ne k "files" JsonValue.null [] h
  | cons p o ih =>
    obtain ⟨k', v⟩ := p
    by_cases he : k = k'
    · subst he
      rw [List.cons_append, lookup_cons_self, lookup_cons_self]
    · rw [List.cons_append, lookup_cons_ne _ _ _ _ he, lookup_cons_ne _ _ _ _ he, ih]

lemma lookup_setFilesNull_files (o : JsonFields) :
    (setFilesNull o).lookup "files" = some JsonValue.null := by
  unfold setFilesNull
  split
  · next h => exact lookup_map_setNull_files o h
  · next h =>
    refine lookup_append_files o ?_
    intro p hp
    have := List.any_eq_false.mp (Bool.of_not_eq_true h) p hp
    simpa using this

lemma lookup_setFilesNull_ne (o : JsonFields) (k : String) (h : k ≠ "files") :
    (setFilesNull o).lookup k = o.lookup k := by
  unfold setFilesNull
  split
  · exact lookup_map_setNull_ne o k h
  · exact lookup_append_ne o k h

/-- The mutated object's `files` entry is null. -/
lemma jsGet_setFilesNull_files (o : JsonFields) :
    jsGet (setFilesNull o) "files" = JsonValue.null := by
  unfold jsGet
  rw [lookup_setFilesNull_files]

/-- The mutation `options.files = null` leaves every other key unchanged. -/
lemma jsGet_setFilesNull_ne (o : JsonFields) (k : String) (h : k ≠ "files") :
    jsGet (setFilesNull o) k = jsGet o k := by
  unfold jsGet
  rw [lookup_setFilesNull_ne o k h]

lemma flatMap_filter_spec_eq (o : JsonFields) :
    ((o.filter fun p => !specReserved p.1).flatMap fun p => entryArgs p.1 p.2) =
      (o.filter fun p => !specReserved p.1).flatMap fun p => specEntryTokens p.1 p.2 := by
  induction o with
  | nil => rfl
  | cons p o ih =>
    obtain ⟨k, v⟩ := p
    rw [List.filter_cons]
    by_cases hres : specReserved k = true
    · simp [hres, ih]
    · have h1 : k ≠ "devServerTarget" := by
        intro hc
        simp [specReserved, hc] at hres
      have h2 : k ≠ "port" := by
        intro hc
        simp [specReserved, hc] at hres
      simp only [Bool.not_eq_true] at hres
      simp only [hres, Bool.not_false, if_pos, List.flatMap_cons]
      rw [entryArgs_eq_specEntryTokens k v h1 h2, ih]

lemma jsToString_str (s : String) : jsToString (JsonValue.str s) = s := by
  simp [jsToString]

lemma filesArgsOf_denotes (o : JsonFields) (fs : List String)
    (h : filesDenotes (jsGet o "files") fs) : filesArgsOf o = fs := by
  rcases h with h | ⟨h, rfl⟩
  · have hrw : filesArgsOf o = (fs.map JsonValue.str).map jsToString := by
      unfold filesArgsOf
      rw [h]
    rw [hrw, List.map_map]
    have : jsToString ∘ JsonValue.str = id := by
      funext s
      exact jsToString_str s
    rw [this, List.map_id]
  · rcases h with h | h <;> simp [filesArgsOf, h]

/-! ## Claim theorems: argument translation -/

/-- C3 (counterexample): `buildArgs` is not pure — on an options object
whose `files` entry is `["a.ts"]`, the caller's object after the call no
longer holds that value: its `files` entry has become null. -/
theorem buildArgs_mutates_counterexample :
    jsGet ((buildArgs [("files", JsonValue.arr [JsonValue.str "a.ts"]),
        ("workers", JsonValue.num 2)]).2) "files"
      ≠ jsGet [("files", JsonValue.arr [JsonValue.str "a.ts"]),
        ("workers", JsonValue.num 2)] "files" := by
  have h1 : jsGet ((buildArgs [("files", JsonValue.arr [JsonValue.str "a.ts"]),
      ("workers", JsonValue.num 2)]).2) "files" = JsonValue.null := rfl
  have h2 : jsGet [("files", JsonValue.arr [JsonValue.str "a.ts"]),
      ("workers", JsonValue.num 2)] "files"
        = JsonValue.arr [JsonValue.str "a.ts"] := rfl
  rw [h1, h2]
  intro hc
  exact JsonValue.noConfusion hc

/-- C3 (amended): `buildArgs` mutates the caller's options object in
exactly one way — its `files` entry is set to null (added when absent);
every entry under any other key is unchanged. -/
theorem buildArgs_mutation_only_files (o : JsonFields) (k : String) :
    jsGet ((buildArgs o).2) "files" = JsonValue.null
    ∧ (k ≠ "files" → jsGet ((buildArgs o).2) k = jsGet o k) :=
  ⟨jsGet_setFilesNull_files o, fun h => jsGet_setFilesNull_ne o k h⟩

/-- C3 (witness): on `{files: ["a.ts"], workers: 2}`, the `workers` entry
still holds `2` after the call. -/
theorem buildArgs_mutation_only_files_witness :
    jsGet ((buildArgs [("files", JsonValue.arr [JsonValue.str "a.ts"]),
        ("workers", JsonValue.num 2)]).2) "workers" = JsonValue.num 2 :=
  ((buildArgs_mutation_only_files
      [("files", JsonValue.arr [JsonValue.str "a.ts"]),
        ("workers", JsonValue.num 2)] "workers").2 (by decide)).trans rfl

/-- C4: the argv list returned by `buildArgs` is the `files` tokens
followed by, for every non-reserved key/value pair in the mapping's order,
exactly the tokens prescribed by the spec: nothing for object, array,
null or undefined values; one token `<prefix><dasherized-key>` for boolean
true; nothing for boolean false; otherwise the flag followed by the
value's string form (so a numeric `0` still serializes as `"0"`). -/
theorem buildArgs_spec_emission (o : JsonFields) :
    (buildArgs o).1 = filesArgsOf o
      ++ (o.filter fun p => !specReserved p.1).flatMap
          fun p => specEntryTokens p.1 p.2 := by
  unfold buildArgs
  exact congrArg _ (flatMap_setFilesNull o)

/-- C5: whenever the `files` option denotes the file list `fs` (an array
of those strings, or null/undefined denoting the empty list), the returned
argv list begins with exactly `fs` as bare positional tokens in order, and
the rest of the list is contributed only by non-reserved entries — no
reserved key (`devServerTarget`, `port`, `files`) is ever translated into
a flag. -/
theorem buildArgs_files_first (o : JsonFields) (fs : List String)
    (h : filesDenotes (jsGet o "files") fs) :
    (buildArgs o).1 = fs
      ++ (o.filter fun p => !specReserved p.1).flatMap
          fun p => entryArgs p.1 p.2 := by
  have h1 : (buildArgs o).1
      = filesArgsOf o ++ (setFilesNull o).flatMap fun p => entryArgs p.1 p.2 := rfl
  rw [h1, filesArgsOf_denotes o fs h, flatMap_setFilesNull o, ← flatMap_filter_spec_eq o]

/-- C5 (witness): `{files: ["a.ts","b.ts"], devServerTarget: "x:serve",
port: 4200, headed: true}` translates to `["a.ts","b.ts","--headed"]`. -/
theorem buildArgs_files_first_witness :
    (buildArgs [("files", JsonValue.arr [JsonValue.str "a.ts", JsonValue.str "b.ts"]),
        ("devServerTarget", JsonValue.str "x:serve"),
        ("port", JsonValue.num 4200),
        ("headed", JsonValue.bool true)]).1 = ["a.ts", "b.ts", "--headed"] :=
  (buildArgs_files_first
      [("files", JsonValue.arr [JsonValue.str "a.ts", JsonValue.str "b.ts"]),
        ("devServerTarget", JsonValue.str "x:serve"),
        ("port", JsonValue.num 4200),
        ("headed", JsonValue.bool true)]
      ["a.ts", "b.ts"] (Or.inl rfl)).trans rfl

/-! ## Run equations for the orchestrator -/

/-- Whether the promise of `startPlaywrightTest` resolves. -/
def procOk (proc : ProcessBehavior) : Bool :=
  match startPlaywrightTestOutcome proc with
  | .ok _ => true
  | .error _ => false

lemma procOk_iff (proc : ProcessBehavior) :
    procOk proc = true ↔ proc = ProcessBehavior.exit (some 0) := by
  rcases proc with _ | code
  · simp [procOk, startPlaywrightTestOutcome]
  · by_cases hc : code = some 0 <;>
      simp [procOk, startPlaywrightTestOutcome, hc]

lemma runE2E_eq_noTarget (o : JsonFields) (dev : DevServerBehavior)
    (proc : ProcessBehavior) (h : jsTruthy (jsGet o "devServerTarget") = false) :
    runE2E o dev proc = (⟨procOk proc⟩, [Event.spawnTest ""]) := by
  unfold runE2E procOk
  rw [h]
  cases hval : startPlaywrightTestOutcome proc <;> simp [hval]

lemma runE2E_eq_rejectResolve (o : JsonFields) (proc : ProcessBehavior)
    (h : jsTruthy (jsGet o "devServerTarget") = true) :
    runE2E o DevServerBehavior.rejectResolve proc
      = (⟨false⟩, [Event.resolveTarget]) := by
  unfold runE2E
  rw [h]
  simp [startDevServer]

lemma runE2E_eq_rejectSchedule (o : JsonFields) (proc : ProcessBehavior)
    (h : jsTruthy (jsGet o "devServerTarget") = true) :
    runE2E o DevServerBehavior.rejectSchedule proc
      = (⟨false⟩, [Event.resolveTarget,
          Event.scheduleTarget (devServerOverrides (optionsPort o))]) := by
  unfold runE2E
  rw [h]
  simp [startDevServer]

lemma runE2E_eq_resultError (o : JsonFields) (proc : ProcessBehavior) (e : Unit)
    (h : jsTruthy (jsGet o "devServerTarget") = true) :
    runE2E o (DevServerBehavior.scheduled (Except.error e)) proc
      = (⟨false⟩, [Event.resolveTarget,
          Event.scheduleTarget (devServerOverrides (optionsPort o)),
          Event.stop]) := by
  unfold runE2E
  rw [h]
  simp [startDevServer]

lemma runE2E_eq_resultOk (o : JsonFields) (proc : ProcessBehavior) (b : String)
    (h : jsTruthy (jsGet o "devServerTarget") = true) :
    runE2E o (DevServerBehavior.scheduled (Except.ok b)) proc
      = (⟨procOk proc⟩, [Event.resolveTarget,
          Event.scheduleTarget (devServerOverrides (optionsPort o)),
          Event.spawnTest b, Event.stop]) := by
  unfold runE2E procOk
  rw [h]
  cases hval : startPlaywrightTestOutcome proc <;> simp [startDevServer, hval]

/-! ## Claim theorems: orchestrator -/

/-- C1: in every invocation, `stop()` is invoked exactly once when a
server handle was obtained, and never when no handle was obtained —
uniformly over every exit path (process success, process failure, server
base-URL failure, spawn failure, scheduling rejection). -/
theorem runE2E_stop_exactly_once (o : JsonFields) (dev : DevServerBehavior)
    (proc : ProcessBehavior) :
    stopCount (runE2E o dev proc).2 = if handleObtained o dev then 1 else 0 := by
  cases h : jsTruthy (jsGet o "devServerTarget")
  · rw [runE2E_eq_noTarget o dev proc h]
    simp [stopCount, handleObtained, h]
  · rcases dev with _ | _ | (e | b)
    · rw [runE2E_eq_rejectResolve o proc h]
      simp [stopCount, handleObtained, h]
    · rw [runE2E_eq_rejectSchedule o proc h]
      simp [stopCount, handleObtained, h]
    · rw [runE2E_eq_resultError o proc e h]
      simp [stopCount, handleObtained, h]
    · rw [runE2E_eq_resultOk o proc b h]
      simp [stopCount, handleObtained, h]

/-- C2: an invocation yields `{success:true}` exactly when the test
process was spawned and exited with code 0; every other outcome — other
exit code, signal, spawn failure, or any dev-server error — yields
`{success:false}`, never an escaping error. -/
theorem runE2E_success_iff (o : JsonFields) (dev : DevServerBehavior)
    (proc : ProcessBehavior) :
    (runE2E o dev proc).1.success = true ↔
      ((∃ b, Event.spawnTest b ∈ (runE2E o dev proc).2)
        ∧ proc = ProcessBehavior.exit (some 0)) := by
  cases h : jsTruthy (jsGet o "devServerTarget")
  · rw [runE2E_eq_noTarget o dev proc h]
    simp [procOk_iff]
  · rcases dev with _ | _ | (e | b)
    · rw [runE2E_eq_rejectResolve o proc h]
      simp
    · rw [runE2E_eq_rejectSchedule o proc h]
      simp
    · rw [runE2E_eq_resultError o proc e h]
      simp
    · rw [runE2E_eq_resultOk o proc b h]
      simp [procOk_iff]

/-- C6: when the scheduling request rejects, or the handle's base-URL
outcome fails, the overall result is `{success:false}` and the test
process is never spawned. -/
theorem runE2E_server_failure (o : JsonFields) (dev : DevServerBehavior)
    (proc : ProcessBehavior)
    (hp : jsTruthy (jsGet o "devServerTarget") = true)
    (hd : dev = DevServerBehavior.rejectSchedule
      ∨ dev = DevServerBehavior.scheduled (Except.error ())) :
    (runE2E o dev proc).1.success = false
    ∧ ∀ b, Event.spawnTest b ∉ (runE2E o dev proc).2 := by
  rcases hd with rfl | rfl
  · rw [runE2E_eq_rejectSchedule o proc hp]
    simp
  · rw [runE2E_eq_resultError o proc () hp]
    simp

/-- C6 (witness): with target `app:serve` and a rejecting scheduler, the
result is failure and the process is not spawned, whatever the process
would have done. -/
theorem runE2E_server_failure_witness :
    (runE2E [("devServerTarget", JsonValue.str "app:serve")]
        DevServerBehavior.rejectSchedule (ProcessBehavior.exit (some 0))).1.success = false
    ∧ Event.spawnTest ""
        ∉ (runE2E [("devServerTarget", JsonValue.str "app:serve")]
            DevServerBehavior.rejectSchedule (ProcessBehavior.exit (some 0))).2 :=
  ⟨(runE2E_server_failure [("devServerTarget", JsonValue.str "app:serve")]
      DevServerBehavior.rejectSchedule (ProcessBehavior.exit (some 0))
      rfl (Or.inl rfl)).1,
   (runE2E_server_failure [("devServerTarget", JsonValue.str "app:serve")]
      DevServerBehavior.rejectSchedule (ProcessBehavior.exit (some 0))
      rfl (Or.inl rfl)).2 ""⟩

/-- C8: when `devServerTarget` is absent (undefined or null), no target
resolution and no `scheduleTarget` call happens, and the test process is
spawned with base URL `""`. -/
theorem runE2E_absent_target (o : JsonFields) (dev : DevServerBehavior)
    (proc : ProcessBehavior)
    (h : jsGet o "devServerTarget" = JsonValue.undefined
      ∨ jsGet o "devServerTarget" = JsonValue.null) :
    Event.resolveTarget ∉ (runE2E o dev proc).2
    ∧ (∀ ov, Event.scheduleTarget ov ∉ (runE2E o dev proc).2)
    ∧ Event.spawnTest "" ∈ (runE2E o dev proc).2 := by
  have hf : jsTruthy (jsGet o "devServerTarget") = false := by
    rcases h with h | h <;> rw [h] <;> rfl
  rw [runE2E_eq_noTarget o dev proc hf]
  simp

/-- C8 (witness): with options `{workers: 2}` (no `devServerTarget`), the
trace holds no resolution and no scheduling, and a spawn with base URL "". -/
theorem runE2E_absent_target_witness :
    Event.resolveTarget
      ∉ (runE2E [("workers", JsonValue.num 2)] DevServerBehavior.rejectResolve
          (ProcessBehavior.exit (some 1))).2
    ∧ Event.scheduleTarget []
      ∉ (runE2E [("workers", JsonValue.num 2)] DevServerBehavior.rejectResolve
          (ProcessBehavior.exit (some 1))).2
    ∧ Event.spawnTest ""
      ∈ (runE2E [("workers", JsonValue.num 2)] DevServerBehavior.rejectResolve
          (ProcessBehavior.exit (some 1))).2 :=
  have h := runE2E_absent_target [("workers", JsonValue.num 2)]
    DevServerBehavior.rejectResolve (ProcessBehavior.exit (some 1)) (Or.inl rfl)
  ⟨h.1, h.2.1 [], h.2.2⟩

/-- C10: a present but empty-string `devServerTarget` is treated as
absent by the truthiness check: no target resolution (so no
target-resolution failure is possible), no `scheduleTarget` call, and the
test process is spawned with base URL `""`. -/
theorem runE2E_empty_target (o : JsonFields) (dev : DevServerBehavior)
    (proc : ProcessBehavior)
    (h : jsGet o "devServerTarget" = JsonValue.str "") :
    Event.resolveTarget ∉ (runE2E o dev proc).2
    ∧ (∀ ov, Event.scheduleTarget ov ∉ (runE2E o dev proc).2)
    ∧ Event.spawnTest "" ∈ (runE2E o dev proc).2 := by
  have hf : jsTruthy (jsGet o "devServerTarget") = false := by
    rw [h]
    rfl
  rw [runE2E_eq_noTarget o dev proc hf]
  simp

/-- C10 (witness): `{devServerTarget: ""}` schedules nothing and spawns
with base URL "". -/
theorem runE2E_empty_target_witness :
    Event.resolveTarget
      ∉ (runE2E [("devServerTarget", JsonValue.str "")] DevServerBehavior.rejectResolve
          (ProcessBehavior.exit (some 0))).2
    ∧ Event.scheduleTarget []
      ∉ (runE2E [("devServerTarget", JsonValue.str "")] DevServerBehavior.rejectResolve
          (ProcessBehavior.exit (some 0))).2
    ∧ Event.spawnTest ""
      ∈ (runE2E [("devServerTarget", JsonValue.str "")] DevServerBehavior.rejectResolve
          (ProcessBehavior.exit (some 0))).2 :=
  have h := runE2E_empty_target [("devServerTarget", JsonValue.str "")]
    DevServerBehavior.rejectResolve (ProcessBehavior.exit (some 0)) rfl
  ⟨h.1, h.2.1 [], h.2.2⟩

/-! ## Claim theorems: dev-server overrides -/

/-- C9: the overrides mapping handed to `scheduleTarget` is `{port}` when
a port was provided and is empty otherwise — it never holds any other key. -/
theorem devServerOverrides_spec (port : Option Int) :
    (port = none → devServerOverrides port = [])
    ∧ ∀ p : Int, port = some p →
        devServerOverrides port = [("port", JsonValue.num p)] := by
  constructor
  · rintro rfl
    rfl
  · rintro p rfl
    rfl

/-- C9 (witness): port 4200 yields overrides `{port: 4200}`, a null port
yields empty overrides. -/
theorem devServerOverrides_spec_witness :
    devServerOverrides (some 4200) = [("port", JsonValue.num 4200)]
    ∧ devServerOverrides none = [] :=
  ⟨(devServerOverrides_spec (some 4200)).2 4200 rfl,
   (devServerOverrides_spec none).1 rfl⟩

/-! ## Lemmas about the child-process environment -/

lemma lookup_assign_map_self (o : Env) (k v : String)
    (h : (o.any fun p => p.1 = k) = true) :
    ((o.map fun p => if p.1 = k then (k, v) else p).lookup k) = some v := by
  induction o with
  | nil => simp at h
  | cons p o ih =>
    obtain ⟨k₀, w⟩ := p
    rw [List.map_cons]
    by_cases hk : k₀ = k
    · rw [if_pos hk, lookup_cons_self]
    · rw [if_neg hk, lookup_cons_ne _ _ _ _ (fun hc => hk hc.symm)]
      exact ih (by simpa [hk] using h)

lemma lookup_assign_map_ne (o : Env) (k v k' : String) (h : k' ≠ k) :
    ((o.map fun p => if p.1 = k then (k, v) else p).lookup k') = o.lookup k' := by
  induction o with
  | nil => rfl
  | cons p o ih =>
    obtain ⟨k₀, w⟩ := p
    rw [List.map_cons]
    by_cases hk : k₀ = k
    · rw [if_pos hk]
      subst hk
      rw [lookup_cons_ne _ _ _ _ h, lookup_cons_ne _ _ _ _ h, ih]
    · rw [if_neg hk]
      by_cases he : k' = k₀
      · subst he
        rw [lookup_cons_self, lookup_cons_self]
      · rw [lookup_cons_ne _ _ _ _ he, lookup_cons_ne _ _ _ _ he, ih]

lemma lookup_eq_none_of_any_false {β : Type} (o : List (String × β)) (k : String)
    (h : (o.any fun p => p.1 = k) = false) : o.lookup k = none := by
  induction o with
  | nil => rfl
  | cons p o ih =>
    obtain ⟨k₀, w⟩ := p
    have hk : k₀ ≠ k := by
      intro hc
      simp [hc] at h
    rw [lookup_cons_ne _ _ _ _ (fun hc => hk hc.symm)]
    exact ih (by simpa [hk] using h)

lemma lookup_append_one {β : Type} (o : List (String × β)) (k k' : String) (v : β) :
    (o ++ [(k, v)]).lookup k'
      = match o.lookup k' with
        | some w => some w
        | none => if k' = k then some v else none := by
  induction o with
  | nil =>
    by_cases h : k' = k
    · subst h
      simp [lookup_cons_self]
    · have hb : (k' == k) = false := beq_eq_false_iff_ne.mpr h
      simp [List.lookup, hb, h]
  | cons p o ih =>
    obtain ⟨k₀, w⟩ := p
    by_cases he : k' = k₀
    · subst he
      rw [List.cons_append, lookup_cons_self, lookup_cons_self]
    · rw [List.cons_append, lookup_cons_ne _ _ _ _ he, lookup_cons_ne _ _ _ _ he, ih]

lemma objAssign_lookup_self (o : Env) (k v : String) :
    (objAssign o k v).lookup k = some v := by
  unfold objAssign
  split
  · next h => exact lookup_assign_map_self o k v h
  · next h =>
    rw [lookup_append_one o k k v,
      lookup_eq_none_of_any_false o k (Bool.of_not_eq_true h)]
    simp

lemma objAssign_lookup_ne (o : Env) (k v k' : String) (h : k' ≠ k) :
    (objAssign o k v).lookup k' = o.lookup k' := by
  unfold objAssign
  split
  · exact lookup_assign_map_ne o k v k' h
  · rw [lookup_append_one o k k' v]
    cases hl : o.lookup k' <;> simp [hl, h]

/-- Looking a key up after a spread: the spread entries win when they hold
the key (assuming the spread object has no duplicate keys, as a process
environment does), the base entry otherwise. -/
lemma objSpread_lookup (base addl : Env)
    (hnd : (addl.map Prod.fst).Nodup) (k : String) :
    (objSpread base addl).lookup k
      = match addl.lookup k with
        | some v => some v
        | none => base.lookup k := by
  induction addl generalizing base with
  | nil => simp [objSpread, List.lookup]
  | cons p addl ih =>
    obtain ⟨k₀, v₀⟩ := p
    have hk₀ : k₀ ∉ addl.map Prod.fst := (List.nodup_cons.mp hnd).1
    have hnd' : (addl.map Prod.fst).Nodup := (List.nodup_cons.mp hnd).2
    have hstep : objSpread base ((k₀, v₀) :: addl)
        = objSpread (objAssign base k₀ v₀) addl := rfl
    rw [hstep, ih (objAssign base k₀ v₀) hnd']
    by_cases he : k = k₀
    · subst he
      have hlk : addl.lookup k = none := by
        refine lookup_eq_none_of_any_false addl k ?_
        by_contra hc
        have := List.any_eq_true.mp (Bool.of_not_eq_false hc)
        obtain ⟨p, hp, hpk⟩ := this
        exact hk₀ (List.mem_map.mpr ⟨p, hp, of_decide_eq_true hpk⟩)
      rw [hlk, lookup_cons_self, objAssign_lookup_self]
    · rw [lookup_cons_ne _ _ _ _ he]
      cases hl : addl.lookup k <;>
        simp [hl, objAssign_lookup_ne base k₀ v₀ k he]

/-! ## Claim theorems: child-process environment -/

/-- C7 (counterexample): when `process.env` already defines
`PLAYWRIGHT_TEST_BASE_URL`, the child does not receive the resolved base
URL — the spread `{PLAYWRIGHT_TEST_BASE_URL: baseURL, ...process.env}`
lets the pre-existing value win. -/
theorem childEnv_counterexample :
    (childEnv [("PLAYWRIGHT_TEST_BASE_URL", "http://old")] "http://example").lookup
      "PLAYWRIGHT_TEST_BASE_URL" ≠ some "http://example" := by
  intro hc
  have h : (childEnv [("PLAYWRIGHT_TEST_BASE_URL", "http://old")]
      "http://example").lookup "PLAYWRIGHT_TEST_BASE_URL" = some "http://old" := rfl
  rw [h] at hc
  exact absurd (Option.some.inj hc) (by decide)

/-- C7 (amended): the child inherits the current environment; when the
base URL is empty the environment is passed through unmodified; when it is
non-empty, `PLAYWRIGHT_TEST_BASE_URL` is set to the resolved base URL
unless the current environment already defines that variable, in which
case the pre-existing value takes precedence; all other variables are
unchanged. -/
theorem childEnv_spec (env : Env) (baseURL : String)
    (hnd : (env.map Prod.fst).Nodup) :
    (baseURL = "" → childEnv env baseURL = env)
    ∧ (baseURL ≠ "" →
        (childEnv env baseURL).lookup "PLAYWRIGHT_TEST_BASE_URL"
          = some ((env.lookup "PLAYWRIGHT_TEST_BASE_URL").getD baseURL)
        ∧ ∀ k, k ≠ "PLAYWRIGHT_TEST_BASE_URL" →
            (childEnv env baseURL).lookup k = env.lookup k) := by
  constructor
  · rintro rfl
    rfl
  · intro hne
    have hie : baseURL.isEmpty = false := by
      cases hs : baseURL.isEmpty
      · rfl
      · exact absurd ((String.isEmpty_iff baseURL).mp hs) hne
    have ht : jsTruthy (JsonValue.str baseURL) = true := by
      simp [jsTruthy, hie]
    have hch : childEnv env baseURL
        = objSpread [("PLAYWRIGHT_TEST_BASE_URL", baseURL)] env := by
      unfold childEnv
      rw [ht]
      simp
    constructor
    · rw [hch, objSpread_lookup _ env hnd "PLAYWRIGHT_TEST_BASE_URL"]
      cases hl : env.lookup "PLAYWRIGHT_TEST_BASE_URL" <;>
        simp [hl, lookup_cons_self]
    · intro k hk
      rw [hch, objSpread_lookup _ env hnd k]
      cases hl : env.lookup k <;>
        simp [hl, List.lookup, beq_eq_false_iff_ne.mpr hk]

/-- C7 (witness): with current environment `{PATH: "/usr/bin"}` and base
URL `http://localhost:4200`, the child sees the base-URL variable with the
resolved value and `PATH` unchanged. -/
theorem childEnv_spec_witness :
    (childEnv [("PATH", "/usr/bin")] "http://localhost:4200").lookup
        "PLAYWRIGHT_TEST_BASE_URL" = some "http://localhost:4200"
    ∧ (childEnv [("PATH", "/usr/bin")] "http://localhost:4200").lookup "PATH"
        = some "/usr/bin" :=
  have h := (childEnv_spec [("PATH", "/usr/bin")] "http://localhost:4200"
    (by simp)).2 (by decide)
  ⟨h.1.trans rfl, (h.2 "PATH" (by decide)).trans rfl⟩
